import Mathlib

/-!
Verification development for a small self-hosted cargo registry served
over HTTP.  The definitions below are a shallow embedding of the
program: byte buffers are lists of naturals, the `anyhow` error type
with its causality chain is an inductive tree of context layers, and
the filesystem plus git repository touched by the publish pipeline and
the index maintenance code are explicit state records.  Machine
integers are naturals with explicit reduction modulo 2 ^ 32 where the
source performs 32-bit arithmetic.
-/

/-- A byte buffer, as the `Bytes` body type of the HTTP layer.  Each
element is one byte value. -/
abbrev Bytes := List Nat

/-- An error with a causality chain, as the `anyhow::Error` type: a
root message optionally wrapped in any number of context layers. -/
inductive AnyErr where
  | msg (s : String) : AnyErr
  | context (s : String) (inner : AnyErr) : AnyErr
deriving Repr, DecidableEq

/-- The causality chain of an error, outermost layer first, as
`anyhow::Error::chain` rendered to strings. -/
def AnyErr.chain : AnyErr → List String
  | .msg s => [s]
  | .context s inner => s :: inner.chain

/-- The number of layers of the causality chain of an error. -/
def AnyErr.layers : AnyErr → Nat
  | .msg _ => 1
  | .context _ inner => 1 + inner.layers

/-- Attach a context layer to the error of a result, as
`anyhow::Context::context` on a `Result`. -/
def withContext (s : String) : Except AnyErr α → Except AnyErr α
  | .ok a => .ok a
  | .error e => .error (.context s e)

/-- Interpret four bytes as an unsigned 32-bit integer in little-endian
order.  The source uses `u32::from_ne_bytes` (host byte order); the
host is little-endian, as in the captured bodies of the test suite. -/
def u32_from_ne_bytes (b0 b1 b2 b3 : Nat) : Nat :=
  b0 + 2 ^ 8 * b1 + 2 ^ 16 * b2 + 2 ^ 24 * b3

/-- Extract and parse a `u32` value from a `Bytes` object.  Mirrors
`parse_u32` of the publish module: on fewer than four bytes it fails
with `not enough data for u32` and leaves the buffer untouched; else
it splits off the first four bytes and decodes them in host byte
order.  The returned pair is the result together with the buffer after
the call, reflecting the in-place mutation of the source. -/
def parse_u32 (bytes : Bytes) : Except AnyErr Nat × Bytes :=
  match bytes with
  | b0 :: b1 :: b2 :: b3 :: rest =>
      (.ok (u32_from_ne_bytes b0 b1 b2 b3), rest)
  | _ => (.error (.msg "not enough data for u32"), bytes)

/-- Craft the file name for a crate named `name` in version `version`,
as `crate_file_name`. -/
def crate_file_name (name version : String) : String :=
  name ++ "-" ++ version ++ ".crate"

/-- Infer the path to a crate inside the index from its name, as
`crate_path`.  The result is the list of path components.  The source
marks the empty name unreachable (it is rejected before the call); the
embedding returns the empty path there. -/
def crate_path (name : List Char) : List String :=
  match name with
  | [] => []
  | [_] => ["1"]
  | [_, _] => ["2"]
  | [c, _, _] => ["3", String.mk [c]]
  | c1 :: c2 :: c3 :: c4 :: _ => [String.mk [c1, c2], String.mk [c3, c4]]

/-- Read the actual crate data from the request, as `read_crate`:
fails when fewer than `crate_length` bytes remain, else splits off
exactly `crate_length` bytes. -/
def read_crate (bytes : Bytes) (crate_length : Nat) : Except AnyErr Bytes × Bytes :=
  if crate_length ≤ bytes.length then
    (.ok (bytes.take crate_length), bytes.drop crate_length)
  else
    (.error (.msg "not enough data for crate"), bytes)

/-! ### SHA-256, as the external digest primitive used by the publish
pipeline, and the lowercase hex rendering of a digest. -/

/-- The modulus of 32-bit arithmetic. -/
def m32 : Nat := 2 ^ 32

/-- 32-bit addition. -/
def add32 (a b : Nat) : Nat := (a + b) % m32

/-- 32-bit right rotation. -/
def rotr32 (n x : Nat) : Nat := ((x >>> n) ||| (x <<< (32 - n))) % m32

/-- The SHA-256 choice function. -/
def shaCh (x y z : Nat) : Nat := (x &&& y) ^^^ ((x ^^^ (m32 - 1)) &&& z)

/-- The SHA-256 majority function. -/
def shaMaj (x y z : Nat) : Nat := (x &&& y) ^^^ (x &&& z) ^^^ (y &&& z)

/-- The SHA-256 big sigma-0 function. -/
def bigSigma0 (x : Nat) : Nat := rotr32 2 x ^^^ rotr32 13 x ^^^ rotr32 22 x

/-- The SHA-256 big sigma-1 function. -/
def bigSigma1 (x : Nat) : Nat := rotr32 6 x ^^^ rotr32 11 x ^^^ rotr32 25 x

/-- The SHA-256 small sigma-0 function. -/
def smallSigma0 (x : Nat) : Nat := rotr32 7 x ^^^ rotr32 18 x ^^^ (x >>> 3)

/-- The SHA-256 small sigma-1 function. -/
def smallSigma1 (x : Nat) : Nat := rotr32 17 x ^^^ rotr32 19 x ^^^ (x >>> 10)

/-- The SHA-256 round constants. -/
def shaK : List Nat :=
  [1116352408, 1899447441, 3049323471, 3921009573, 961987163, 1508970993,
   2453635748, 2870763221, 3624381080, 310598401, 607225278, 1426881987,
   1925078388, 2162078206, 2614888103, 3248222580, 3835390401, 4022224774,
   264347078, 604807628, 770255983, 1249150122, 1555081692, 1996064986,
   2554220882, 2821834349, 2952996808, 3210313671, 3336571891, 3584528711,
   113926993, 338241895, 666307205, 773529912, 1294757372, 1396182291,
   1695183700, 1986661051, 2177026350, 2456956037, 2730485921, 2820302411,
   3259730800, 3345764771, 3516065817, 3600352804, 4094571909, 275423344,
   430227734, 506948616, 659060556, 883997877, 958139571, 1322822218,
   1537002063, 1747873779, 1955562222, 2024104815, 2227730452, 2361852424,
   2428436474, 2756734187, 3204031479, 3329325298]

/-- The SHA-256 initial hash value. -/
def shaH0 : List Nat :=
  [1779033703, 3144134277, 1013904242, 2773480762,
   1359893119, 2600822924, 528734635, 1541459225]

/-- Group a byte list into big-endian 32-bit words. -/
def bytesToWords : List Nat → List Nat
  | b0 :: b1 :: b2 :: b3 :: rest =>
      (2 ^ 24 * b0 + 2 ^ 16 * b1 + 2 ^ 8 * b2 + b3) :: bytesToWords rest
  | _ => []

/-- Extend sixteen message words to the 64-entry message schedule. -/
def schedule (ws : List Nat) : List Nat :=
  (List.range 48).foldl
    (fun acc _ =>
      acc ++ [add32
        (add32 (smallSigma1 (acc.getD (acc.length - 2) 0)) (acc.getD (acc.length - 7) 0))
        (add32 (smallSigma0 (acc.getD (acc.length - 15) 0)) (acc.getD (acc.length - 16) 0))])
    ws

/-- One SHA-256 compression round on the eight working variables. -/
def compressRound (ws : List Nat) (st : List Nat) (t : Nat) : List Nat :=
  let a := st.getD 0 0
  let b := st.getD 1 0
  let c := st.getD 2 0
  let d := st.getD 3 0
  let e := st.getD 4 0
  let f := st.getD 5 0
  let g := st.getD 6 0
  let h := st.getD 7 0
  let t1 := add32 h (add32 (bigSigma1 e)
    (add32 (shaCh e f g) (add32 (shaK.getD t 0) (ws.getD t 0))))
  let t2 := add32 (bigSigma0 a) (shaMaj a b c)
  [add32 t1 t2, a, b, c, add32 d t1, e, f, g]

/-- Compress one 64-byte chunk into the running hash. -/
def compress (hsh chunk : List Nat) : List Nat :=
  let ws := schedule (bytesToWords chunk)
  let st := (List.range 64).foldl (compressRound ws) hsh
  (hsh.zip st).map (fun p => add32 p.1 p.2)

/-- Render a 32-bit word as four big-endian bytes. -/
def wordToBytes4 (n : Nat) : List Nat :=
  [n / 2 ^ 24 % 256, n / 2 ^ 16 % 256, n / 2 ^ 8 % 256, n % 256]

/-- Render a 64-bit word as eight big-endian bytes. -/
def wordToBytes8 (n : Nat) : List Nat :=
  [n / 2 ^ 56 % 256, n / 2 ^ 48 % 256, n / 2 ^ 40 % 256, n / 2 ^ 32 % 256,
   n / 2 ^ 24 % 256, n / 2 ^ 16 % 256, n / 2 ^ 8 % 256, n % 256]

/-- SHA-256 padding: a `0x80` byte, zeros up to 56 mod 64, then the
bit length as a 64-bit big-endian value. -/
def sha256pad (msg : List Nat) : List Nat :=
  msg ++ [0x80] ++ List.replicate ((119 - msg.length % 64) % 64) 0
      ++ wordToBytes8 (8 * msg.length)

/-- SHA-256 of a byte list, producing the 32 digest bytes. -/
def sha256 (msg : List Nat) : List Nat :=
  let padded := sha256pad msg
  let chunks := (List.range (padded.length / 64)).map
    (fun i => (padded.drop (64 * i)).take 64)
  ((chunks.foldl compress shaH0).map wordToBytes4).flatten

/-- A lowercase hexadecimal digit. -/
def hexDigit (n : Nat) : Char :=
  if n < 10 then Char.ofNat (48 + n) else Char.ofNat (87 + n)

/-- The two lowercase hex digits of a byte. -/
def byteToHex (b : Nat) : List Char := [hexDigit (b / 16), hexDigit (b % 16)]

/-- Lowercase hex rendering of a byte list, as the Rust hex format
applied to a SHA-256 digest value. -/
def bytesToHex (bs : List Nat) : String := String.mk ((bs.map byteToHex).flatten)

/-- The numeric value of one lowercase hex digit. -/
def hexDigitVal (c : Char) : Nat :=
  if 97 ≤ c.toNat then c.toNat - 87 else c.toNat - 48

/-- Decode pairs of hex digits into bytes. -/
def hexPairsDecode : List Char → List Nat
  | a :: b :: rest => (16 * hexDigitVal a + hexDigitVal b) :: hexPairsDecode rest
  | _ => []

/-- Decode a hex string into its bytes. -/
def hexDecode (s : String) : List Nat := hexPairsDecode s.toList

/-! ### The data model of the publish request and of the index, as the
`Dep`, `MetaData`, `Entry` and `Config` types of the source. -/

/-- The dependency kind of the publish wire format. -/
inductive Kind where
  | dev : Kind
  | build : Kind
  | normal : Kind
deriving Repr, DecidableEq

/-- The `Display` rendering of a dependency kind, used when storing it
in the index as a string. -/
def Kind.render : Kind → String
  | .dev => "dev"
  | .build => "build"
  | .normal => "normal"

/-- A dependency in the publish wire format, as `publish::Dep`.  The
`name` is the original package name; a rename, when present, is in
`explicit_name_in_toml`. -/
structure Publish.Dep where
  name : String
  version_req : String
  features : List String
  optional : Bool
  default_features : Bool
  target : Option String
  kind : Kind
  registry : Option String
  explicit_name_in_toml : Option String
deriving Repr, DecidableEq

/-- A dependency in the index on-disk format, as `index::Dep`. -/
structure Index.Dep where
  name : String
  req : String
  features : List String
  optional : Bool
  default_features : Bool
  target : Option String
  kind : String
  registry : Option String
  package : Option String
deriving Repr, DecidableEq

/-- The conversion from the wire form to the index form of a
dependency, as the `From<Dep>` impl of the publish module: the wire
`name` is carried into the stored `name` field and the wire
`explicit_name_in_toml` into the stored `package` field. -/
def Index.Dep.fromPublish (source : Publish.Dep) : Index.Dep :=
  { name := source.name
    req := source.version_req
    features := source.features
    optional := source.optional
    default_features := source.default_features
    target := source.target
    kind := source.kind.render
    registry := source.registry
    package := source.explicit_name_in_toml }

/-- The JSON metadata of a publish request, as `publish::MetaData`. -/
structure MetaData where
  name : String
  vers : String
  deps : List Publish.Dep
  features : List (String × List String)
  authors : List String
  description : Option String
  documentation : Option String
  homepage : Option String
  readme : Option String
  readme_file : Option String
  keywords : List String
  categories : List String
  license : Option String
  license_file : Option String
  repository : Option String
  badges : List (String × List (String × String))
  links : Option String
deriving Repr, DecidableEq

/-- One line of a per-package index file, as `index::Entry`. -/
structure Index.Entry where
  name : String
  vers : String
  deps : List Index.Dep
  cksum : String
  features : List (String × List String)
  yanked : Bool
  links : Option String
deriving Repr, DecidableEq

/-- The conversion from publish metadata plus archive bytes to an
index entry, as the `From<(MetaData, &[u8])>` impl: the checksum is
the lowercase hex rendering of the SHA-256 digest of the archive
bytes. -/
def Index.Entry.fromMeta (metadata : MetaData) (data : Bytes) : Index.Entry :=
  { name := metadata.name
    vers := metadata.vers
    deps := metadata.deps.map Index.Dep.fromPublish
    cksum := bytesToHex (sha256 data)
    features := metadata.features
    yanked := false
    links := metadata.links }

/-- The registry configuration file, as `index::Config`. -/
structure Config where
  dl : String
  api : Option String
deriving Repr, DecidableEq

/-- Whether a string is pure ASCII, as `str::is_ascii`. -/
def isAsciiString (s : String) : Bool :=
  s.toList.all (fun c => c.toNat ≤ 127)

/-- Extract and parse the JSON metadata of a publish request, as
`parse_metadata`.  The JSON decoder itself (`serde_json::from_slice`)
is an external collaborator and is passed as the `from_slice`
argument.  On a length shortfall nothing is consumed; on a decode
failure the `json_length` bytes were already split off. -/
def parse_metadata (from_slice : Bytes → Option MetaData) (bytes : Bytes)
    (json_length : Nat) : Except AnyErr MetaData × Bytes :=
  if json_length ≤ bytes.length then
    match from_slice (bytes.take json_length) with
    | some metadata => (.ok metadata, bytes.drop json_length)
    | none =>
        (.error (.context "failed to parse JSON metadata" (.msg "invalid JSON")),
         bytes.drop json_length)
  else
    (.error (.msg "insufficient data in body"), bytes)

/-! ### The registry filesystem and the publish pipeline. -/

/-- Look up a key in an association list. -/
def getA [DecidableEq κ] : List (κ × α) → κ → Option α
  | [], _ => none
  | (k, v) :: rest, key => if key = k then some v else getA rest key

/-- Set a key in an association list, replacing an existing binding or
inserting a fresh one. -/
def setA [DecidableEq κ] : List (κ × α) → κ → α → List (κ × α)
  | [], key, v => [(key, v)]
  | (k, v0) :: rest, key, v =>
      if key = k then (k, v) :: rest else (k, v0) :: setA rest key v

/-- The slice of the filesystem below the registry root that the
publish pipeline touches, together with the git staging area and the
commits on HEAD.  Paths are lists of components relative to the
root. -/
structure RegistryFs where
  dirs : List (List String)
  index_files : List (List String × List Index.Entry)
  crate_files : List (String × Bytes)
  staged : List (List String)
  commits : List String
deriving Repr, DecidableEq

/-- The empty registry filesystem. -/
def RegistryFs.empty : RegistryFs :=
  { dirs := [], index_files := [], crate_files := [], staged := [], commits := [] }

/-- Recursive directory creation, as `create_dir_all`: a no-op when
the directory already exists. -/
def create_dir_all (dir : List String) (st : RegistryFs) : RegistryFs :=
  if dir ∈ st.dirs then st else { st with dirs := dir :: st.dirs }

/-- The PUT handler for the `/api/v1/crates/new` endpoint, as
`publish_crate`.  The JSON decoder is the external `from_slice`
collaborator.  The returned pair carries the result together with the
filesystem after the call, also on the error paths, since the source
mutates the filesystem as it goes and performs no rollback. -/
def publish_crate (from_slice : Bytes → Option MetaData) (body : Bytes)
    (st : RegistryFs) : Except AnyErr Unit × RegistryFs :=
  match parse_u32 body with
  | (.error e, _) => (.error (.context "failed to read JSON length" e), st)
  | (.ok json_length, body1) =>
    match parse_metadata from_slice body1 json_length with
    | (.error e, _) => (.error (.context "failed to read JSON body" e), st)
    | (.ok metadata, body2) =>
      let crate_name := metadata.name
      let crate_vers := metadata.vers
      if crate_name.isEmpty then
        (.error (.msg "crate name cannot be empty"), st)
      else if !isAsciiString crate_name then
        (.error (.msg "crate name contains non-ASCII characters"), st)
      else
        let crate_meta_dir := crate_path crate_name.toList
        let st1 := create_dir_all crate_meta_dir st
        match parse_u32 body2 with
        | (.error e, _) => (.error (.context "failed to read crate length" e), st1)
        | (.ok crate_length, body3) =>
          match read_crate body3 crate_length with
          | (.error e, _) => (.error (.context "failed to read crate data" e), st1)
          | (.ok data, _body4) =>
            let crate_meta_path := crate_meta_dir ++ [crate_name]
            let entry := Index.Entry.fromMeta metadata data
            let st2 := { st1 with
              index_files := setA st1.index_files crate_meta_path
                (((getA st1.index_files crate_meta_path).getD []) ++ [entry]) }
            let fname := crate_file_name crate_name crate_vers
            let st3 := { st2 with crate_files := setA st2.crate_files fname data }
            let st4 := { st3 with staged := st3.staged ++ [crate_meta_path, [fname]] }
            let st5 := { st4 with
              commits := st4.commits ++
                ["Add " ++ crate_name ++ " in version " ++ crate_vers] }
            (.ok (), st5)

/-! ### The HTTP surface: body size caps, the response envelope and
the download handler. -/

/-- The `content_length_limit` filter of the HTTP layer: a request is
accepted exactly when its declared Content-Length does not exceed the
limit. -/
def content_length_limit (limit content_length : Nat) : Bool :=
  content_length ≤ limit

/-- The publish body cap installed by the library `serve` routine of
the serve module. -/
def serve_publish_limit : Nat := 20 * 1024 * 1024

/-- The publish body cap installed by the `run` routine of the main
module, which builds its own copy of the route table. -/
def run_publish_limit : Nat := 2 * 1024 * 1024

/-- The body of an HTTP response: either raw text (possibly empty) or
the JSON error envelope with its list of `detail` strings. -/
inductive RespBody where
  | text (s : String) : RespBody
  | errorsJson (details : List String) : RespBody
deriving Repr, DecidableEq

/-- An HTTP response of the registry: a status code and a body. -/
structure Response where
  status : Nat
  body : RespBody
deriving Repr, DecidableEq

/-- Convert a result back into a response, as the `response` routine:
the status is always 200 and an error is rendered as the JSON error
envelope holding one `detail` per layer of the causality chain,
outermost first. -/
def response (result : Except AnyErr String) : Response :=
  match result with
  | .ok inner => { status := 200, body := .text inner }
  | .error err => { status := 200, body := .errorsJson err.chain }

/-- The publish route: run the pipeline, map success to the empty
string, and convert through the response envelope. -/
def publish_route (from_slice : Bytes → Option MetaData) (body : Bytes)
    (st : RegistryFs) : Response × RegistryFs :=
  let (r, st') := publish_crate from_slice body st
  (response (r.map (fun _ => "")), st')

/-- Whether a byte may appear in the path of a URI accepted by the
Uri parser of the HTTP library.  Modelled from the `http` crate, an
external collaborator: visible ASCII except the characters it excludes
from paths; in particular a space is rejected. -/
def uriByteAllowed (n : Nat) : Bool :=
  decide (0x21 ≤ n) && decide (n ≤ 0x7e) &&
  !(n ∈ [0x22, 0x3c, 0x3e, 0x5c, 0x5e, 0x60, 0x7b, 0x7c, 0x7d])

/-- Whether a string parses as a URI path, per `uriByteAllowed`. -/
def uriParseOk (s : String) : Bool :=
  s.toList.all (fun c => uriByteAllowed c.toNat)

/-- The redirect target crafted by the download handler. -/
def download_path (name version : String) : String :=
  "/crates/" ++ crate_file_name name version

/-- The GET handler of `/api/v1/crates/.../download`: format the
redirect target, parse it as a URI and unwrap.  `none` is the panic of
the unwrap on a parse failure; on success the reply is a redirect to
exactly the formatted path, with no further validation of the
parameters. -/
def download_handler (name version : String) : Option String :=
  if uriParseOk (download_path name version) then
    some (download_path name version)
  else
    none

/-! ### The git-backed index: open, config reconciliation, symlink. -/

instance : DecidableEq (Except Unit Config) := fun a b =>
  match a, b with
  | .ok x, .ok y =>
      if h : x = y then isTrue (h ▸ rfl)
      else isFalse (fun hc => h (Except.ok.inj hc))
  | .ok _, .error _ => isFalse Except.noConfusion
  | .error _, .ok _ => isFalse Except.noConfusion
  | .error x, .error y => match x, y with | (), () => isTrue rfl

/-- The state of the index repository seen by the open path: the
`config.json` file (absent, present but unparsable, or parsed), the
`index` symlink, the staging area and the commits on HEAD. -/
structure RepoState where
  config : Option (Except Unit Config)
  symlink : Bool
  staged : List String
  commits : List String
deriving Repr, DecidableEq

/-- The canonical `dl` value for a bound address, as formatted by
`ensure_config`. -/
def config_dl (addr : String) : String :=
  "http://" ++ addr ++ "/api/v1/crates/\x7bcrate\x7d/\x7bversion\x7d/download"

/-- The canonical `api` value for a bound address. -/
def config_api (addr : String) : String := "http://" ++ addr

/-- Stage a file, as `Index::add`. -/
def Index.add (file : String) (st : RepoState) : RepoState :=
  { st with staged := st.staged ++ [file] }

/-- Create a commit, as `Index::commit`: the message is appended to
the history on HEAD. -/
def Index.commit (message : String) (st : RepoState) : RepoState :=
  { st with commits := st.commits ++ [message] }

/-- Ensure that an initial git commit exists, as
`Index::ensure_has_commit`. -/
def ensure_has_commit (st : RepoState) : RepoState :=
  if st.commits.isEmpty then
    Index.commit "Create new repository for cargo registry" st
  else
    st

/-- Ensure that a valid `config.json` exists and is up to date, as
`Index::ensure_config`: an absent file is created with the canonical
values and committed as `Add initial config.json`; a parsed file whose
`dl` or `api` disagrees is truncated, rewritten, staged and committed
as `Update config.json`; a matching file is left alone; an unparsable
file is an error. -/
def ensure_config (addr : String) (st : RepoState) : Except AnyErr Unit × RepoState :=
  match st.config with
  | some (.ok config) =>
      let dl := config_dl addr
      let api := config_api addr
      if config.dl ≠ dl ∨ config.api ≠ some api then
        let st1 := { st with config := some (.ok { dl := dl, api := some api }) }
        let st2 := Index.add "config.json" st1
        (.ok (), Index.commit "Update config.json" st2)
      else
        (.ok (), st)
  | some (.error _) =>
      (.error (.context "failed to parse config.json" (.msg "invalid JSON")), st)
  | none =>
      let st1 := { st with
        config := some (.ok { dl := config_dl addr, api := some (config_api addr) }) }
      let st2 := Index.add "config.json" st1
      (.ok (), Index.commit "Add initial config.json" st2)

/-- Ensure the recursive `index` symlink exists, as
`Index::ensure_index_symlink`: when the link is created it is staged
and committed as `Add index symlink`; when it already exists nothing
happens. -/
def ensure_index_symlink (st : RepoState) : RepoState :=
  if st.symlink then
    st
  else
    Index.commit "Add index symlink" (Index.add "index" { st with symlink := true })

/-- Open the index, as `Index::new`: create the root and the git
repository (no-ops on the modelled state), ensure an initial commit,
reconcile `config.json` against the address, ensure the `index`
symlink, and refresh the dumb-HTTP server info (a no-op on the
modelled state). -/
def index_new (addr : String) (st : RepoState) : Except AnyErr Unit × RepoState :=
  match ensure_config addr (ensure_has_commit st) with
  | (.error e, st2) => (.error e, st2)
  | (.ok _, st2) => (.ok (), ensure_index_symlink st2)

/-! ### Concrete sample inputs used when instantiating the theorems. -/

/-- A minimal publish metadata value. -/
def md0 : MetaData :=
  { name := "abcd", vers := "0.1.0", deps := [], features := [], authors := [],
    description := none, documentation := none, homepage := none, readme := none,
    readme_file := none, keywords := [], categories := [], license := none,
    license_file := none, repository := none, badges := [], links := none }

/-- A sample JSON decoder: recognises the one-byte buffer `[123]` as
`md0` and nothing else. -/
def from_slice0 : Bytes → Option MetaData :=
  fun bs => if bs = [123] then some md0 else none

/-- A well-formed publish body for `from_slice0`: a one-byte metadata
frame followed by a one-byte archive frame. -/
def body0 : Bytes := [1, 0, 0, 0, 123, 1, 0, 0, 0, 7]

/-- A publish body that carries a valid metadata frame but is
truncated before the archive length. -/
def body4 : Bytes := [1, 0, 0, 0, 123]

/-- A sample bound address. -/
def addr0 : String := "127.0.0.1:35503"

/-- A fresh registry root: no `config.json`, no symlink, no commits. -/
def st_fresh : RepoState :=
  { config := none, symlink := false, staged := [], commits := [] }

/-- The repository state after opening the fresh root at `addr0`. -/
def st_open1 : RepoState := (index_new addr0 st_fresh).2

/-- A root whose `config.json` parses but is unrelated to any address
(its `dl` is `foobar`). -/
def st_stale : RepoState :=
  { config := some (.ok { dl := "foobar", api := none }), symlink := false,
    staged := [], commits := ["c0"] }

/-- The canonical configuration for the address `254.0.0.0:1`. -/
def cfg_canonical1 : Config :=
  { dl := config_dl "254.0.0.0:1", api := some (config_api "254.0.0.0:1") }

/-- The expected result of reconciling `st_stale` against
`254.0.0.0:1`. -/
def st_stale_fixed : RepoState :=
  { config := some (.ok cfg_canonical1), symlink := false,
    staged := ["config.json"], commits := ["c0", "Update config.json"] }

/-! ### Theorems. -/

/-- C5: `parse_u32` on a buffer of length 0, 1, 2 or 3 fails with
`not enough data for u32` and consumes nothing; on every buffer of
length at least 4 it succeeds, consumes exactly the first four bytes
(leaving `len - 4`), and returns those bytes read as an unsigned
32-bit integer in host (little-endian) byte order; in particular
`[44,1,0,0]` yields 300 and `[142,3,0,0,123]` yields 910 leaving one
byte. -/
theorem parse_u32_behaviour (bytes : Bytes) :
    (bytes.length < 4 →
      parse_u32 bytes = (.error (.msg "not enough data for u32"), bytes)) ∧
    (∀ b0 b1 b2 b3 rest, bytes = b0 :: b1 :: b2 :: b3 :: rest →
      parse_u32 bytes = (.ok (b0 + 2 ^ 8 * b1 + 2 ^ 16 * b2 + 2 ^ 24 * b3), rest) ∧
      rest = bytes.drop 4 ∧ rest.length = bytes.length - 4) ∧
    (4 ≤ bytes.length → ∃ v, (parse_u32 bytes).1 = .ok v) ∧
    parse_u32 [44, 1, 0, 0] = (.ok 300, []) ∧
    parse_u32 [142, 3, 0, 0, 123] = (.ok 910, [123]) := by
  refine ⟨?_, ?_, ?_, by rfl, by rfl⟩
  · intro h
    rcases bytes with _ | ⟨b0, _ | ⟨b1, _ | ⟨b2, _ | ⟨b3, rest⟩⟩⟩⟩
    · rfl
    · rfl
    · rfl
    · rfl
    · simp at h
      omega
  · rintro b0 b1 b2 b3 rest rfl
    refine ⟨rfl, rfl, ?_⟩
    simp
  · intro h
    rcases bytes with _ | ⟨b0, _ | ⟨b1, _ | ⟨b2, _ | ⟨b3, rest⟩⟩⟩⟩ <;>
      simp_all [parse_u32]

/-- Witness for C5 at concrete inputs. -/
theorem parse_u32_behaviour_witness :
    parse_u32 [1, 2] = (.error (.msg "not enough data for u32"), [1, 2]) :=
  (parse_u32_behaviour [1, 2]).1 (by decide)

/-- C6: for every non-empty ASCII package name the shard path is `1`
for length-1 names, `2` for length-2 names, `3/<c1>` for length-3
names, `<c1><c2>/<c3><c4>` for longer names; the result depends only
on the first four bytes, and no lowercasing is performed (the bytes
are carried verbatim, case included). -/
theorem crate_path_behaviour :
    (∀ c1 : Char, crate_path [c1] = ["1"]) ∧
    (∀ c1 c2 : Char, crate_path [c1, c2] = ["2"]) ∧
    (∀ c1 c2 c3 : Char, crate_path [c1, c2, c3] = ["3", String.mk [c1]]) ∧
    (∀ (c1 c2 c3 c4 : Char) (rest : List Char),
      crate_path (c1 :: c2 :: c3 :: c4 :: rest) =
        [String.mk [c1, c2], String.mk [c3, c4]]) ∧
    (∀ name : List Char, name ≠ [] → crate_path name = crate_path (name.take 4)) ∧
    crate_path "r".toList = ["1"] ∧
    crate_path "xy".toList = ["2"] ∧
    crate_path "abc".toList = ["3", "a"] ∧
    crate_path "abcd".toList = ["ab", "cd"] ∧
    crate_path "ydasdayusiy".toList = ["yd", "as"] ∧
    crate_path "ABCD".toList = ["AB", "CD"] := by
  refine ⟨fun c1 => rfl, fun c1 c2 => rfl, fun c1 c2 c3 => rfl,
    fun c1 c2 c3 c4 rest => rfl, ?_, rfl, rfl, rfl, rfl, rfl, rfl⟩
  intro name h
  rcases name with _ | ⟨c1, _ | ⟨c2, _ | ⟨c3, _ | ⟨c4, rest⟩⟩⟩⟩
  · exact absurd rfl h
  · rfl
  · rfl
  · rfl
  · rfl

/-- Witness for C6 at a concrete input. -/
theorem crate_path_behaviour_witness :
    crate_path "serde".toList = crate_path ("serde".toList.take 4) :=
  crate_path_behaviour.2.2.2.2.1 "serde".toList (by decide)

/-- C1 (code bug): the conversion from the wire form to the index form
of a dependency does not swap the name fields on a rename.  The wire
`name` (the original package name) is stored in the index `name` field
and `explicit_name_in_toml` (the rename) in the index `package` field,
although the index schema documents `name` as the rename and `package`
as the original. -/
theorem publish_dep_conversion_keeps_wire_name :
    (∀ d : Publish.Dep,
      (Index.Dep.fromPublish d).name = d.name ∧
      (Index.Dep.fromPublish d).package = d.explicit_name_in_toml) ∧
    Index.Dep.fromPublish
      { name := "lib1", version_req := "^1.0", features := [], optional := false,
        default_features := true, target := none, kind := .normal, registry := none,
        explicit_name_in_toml := some "renamed_lib1" } =
      { name := "lib1", req := "^1.0", features := [], optional := false,
        default_features := true, target := none, kind := "normal", registry := none,
        package := some "renamed_lib1" } :=
  ⟨fun _ => ⟨rfl, rfl⟩, rfl⟩

/-- C3 counterexample: the publish endpoint built by the `run` routine
of the main module rejects a body of exactly 20 MiB, because its cap
is 2 MiB. -/
theorem run_publish_cap_rejects_20mib :
    content_length_limit run_publish_limit (20 * 1024 * 1024) = false := by
  decide

/-- C3 (amended): the publish endpoint of the library `serve` routine
accepts request bodies up to and including 20 MiB and rejects larger
ones, while the publish endpoint the main module builds for the
binary accepts bodies only up to and including 2 MiB. -/
theorem publish_body_caps (n : Nat) :
    (content_length_limit serve_publish_limit n = true ↔ n ≤ 20 * 1024 * 1024) ∧
    (content_length_limit run_publish_limit n = true ↔ n ≤ 2 * 1024 * 1024) := by
  constructor <;>
    simp [content_length_limit, serve_publish_limit, run_publish_limit]

/-- Witness for C3 at a concrete length. -/
theorem publish_body_caps_witness :
    content_length_limit serve_publish_limit (20 * 1024 * 1024) = true :=
  (publish_body_caps (20 * 1024 * 1024)).1.mpr (by decide)

/-- C10: the download handler panics (the `unwrap` of the URI parse)
for parameters such as a name containing a space, and for every pair
whose formatted path parses as a URI it replies with a redirect to
exactly `/crates/<name>-<version>.crate`, with no validation of the
parameters (a path-traversal name is passed through verbatim). -/
theorem download_handler_behaviour :
    download_handler "my lib" "0.1.0" = none ∧
    (∀ name version, uriParseOk (download_path name version) = true →
      download_handler name version = some (download_path name version)) ∧
    download_handler "../foo" "0.1.0" = some "/crates/../foo-0.1.0.crate" := by
  refine ⟨by decide, ?_, by decide⟩
  intro name version h
  simp [download_handler, h]

/-- Witness for C10 at a concrete input. -/
theorem download_handler_behaviour_witness :
    download_handler "abc" "1.0" = some (download_path "abc" "1.0") :=
  download_handler_behaviour.2.1 "abc" "1.0" (by decide)

/-- The chain of an error has exactly one entry per layer. -/
theorem chain_length_eq_layers (e : AnyErr) : e.chain.length = e.layers := by
  induction e with
  | msg s => rfl
  | context s inner ih => simp [AnyErr.chain, AnyErr.layers, ih, Nat.add_comm]

/-- C9: every response of the response envelope uses HTTP status 200;
an error result is rendered as the JSON `errors` body with exactly one
`detail` entry per layer of the causality chain, ordered from the
outermost layer to the innermost; a successful publish yields an empty
body. -/
theorem response_envelope :
    (∀ r : Except AnyErr String, (response r).status = 200) ∧
    (∀ e : AnyErr,
      response (.error e) = { status := 200, body := .errorsJson e.chain } ∧
      e.chain.length = e.layers ∧
      (∀ s, (AnyErr.context s e).chain = s :: e.chain)) ∧
    (∀ from_slice body st,
      (publish_crate from_slice body st).1 = .ok () →
      (publish_route from_slice body st).1 = { status := 200, body := .text "" }) := by
  refine ⟨fun r => ?_, fun e => ⟨rfl, chain_length_eq_layers e, fun s => rfl⟩, ?_⟩
  · cases r <;> rfl
  · intro from_slice body st h
    rcases hp : publish_crate from_slice body st with ⟨r, st'⟩
    rw [hp] at h
    simp only at h
    subst h
    simp [publish_route, hp, response, Except.map]

/-- Witness for C9 at a concrete successful publish. -/
theorem response_envelope_witness :
    (publish_route from_slice0 body0 RegistryFs.empty).1 =
      { status := 200, body := .text "" } :=
  response_envelope.2.2 from_slice0 body0 RegistryFs.empty rfl


/-- C7: config reconciliation on open.  When `config.json` exists and
parses but its `dl` or `api` differs from the canonical values for the
bound address, the file is rewritten with the canonical values, staged
and committed with message `Update config.json`; when both fields
already match, nothing is rewritten and no commit is made.  A valid
but unrelated file is just a differing one and is overwritten, not
rejected. -/
theorem ensure_config_reconcile (addr : String) (st : RepoState) (cfg : Config)
    (hc : st.config = some (.ok cfg)) :
    (cfg.dl ≠ config_dl addr ∨ cfg.api ≠ some (config_api addr) →
      ensure_config addr st =
        (.ok (), { st with
          config := some (.ok { dl := config_dl addr, api := some (config_api addr) }),
          staged := st.staged ++ ["config.json"],
          commits := st.commits ++ ["Update config.json"] })) ∧
    (cfg.dl = config_dl addr ∧ cfg.api = some (config_api addr) →
      ensure_config addr st = (.ok (), st)) := by
  constructor
  · intro hd
    unfold ensure_config
    rw [hc]
    dsimp only
    rw [if_pos hd]
    rfl
  · rintro ⟨h1, h2⟩
    unfold ensure_config
    rw [hc]
    dsimp only
    rw [if_neg]
    push_neg
    exact ⟨h1, h2⟩

/-- Witness for C7: a valid but stale `config.json` (`dl` equal to
`foobar`) is overwritten and committed. -/
theorem ensure_config_reconcile_witness :
    ensure_config "254.0.0.0:1" st_stale = (.ok (), st_stale_fixed) := by
  have h := (ensure_config_reconcile "254.0.0.0:1" st_stale
    { dl := "foobar", api := none } rfl).1 (Or.inr (by simp))
  simpa [st_stale, st_stale_fixed, cfg_canonical1] using h

/-- After `ensure_has_commit` the history is never empty. -/
theorem ensure_has_commit_commits_ne (st : RepoState) :
    (ensure_has_commit st).commits ≠ [] := by
  unfold ensure_has_commit Index.commit
  split
  · simp
  · simp_all

/-- A successful `ensure_config` leaves the canonical configuration in
place, preserves the symlink flag, and only ever appends commits. -/
theorem ensure_config_ok_props (addr : String) (st st2 : RepoState) (u : Unit)
    (h : ensure_config addr st = (.ok u, st2)) :
    st2.config = some (.ok { dl := config_dl addr, api := some (config_api addr) }) ∧
    st2.symlink = st.symlink ∧
    ∃ l, st2.commits = st.commits ++ l := by
  unfold ensure_config at h
  rcases hc : st.config with _ | ⟨e | cfg⟩
  · rw [hc] at h
    dsimp only [Index.add, Index.commit] at h
    cases h
    exact ⟨rfl, rfl, _, rfl⟩
  · rw [hc] at h
    simp at h
  · rw [hc] at h
    dsimp only at h
    by_cases hd : cfg.dl ≠ config_dl addr ∨ cfg.api ≠ some (config_api addr)
    · rw [if_pos hd] at h
      dsimp only [Index.add, Index.commit] at h
      cases h
      exact ⟨rfl, rfl, _, rfl⟩
    · rw [if_neg hd] at h
      push_neg at hd
      cases h
      refine ⟨?_, rfl, [], by simp⟩
      rw [hc]
      rcases cfg with ⟨dl, api⟩
      simp only [Option.some.injEq, Except.ok.injEq, Config.mk.injEq]
      exact ⟨hd.1, hd.2⟩

/-- `ensure_index_symlink` forces the symlink flag, preserves the
configuration, and only ever appends commits. -/
theorem ensure_index_symlink_props (st : RepoState) :
    (ensure_index_symlink st).symlink = true ∧
    (ensure_index_symlink st).config = st.config ∧
    ∃ l, (ensure_index_symlink st).commits = st.commits ++ l := by
  unfold ensure_index_symlink Index.add Index.commit
  split
  · simp_all
  · exact ⟨rfl, rfl, _, rfl⟩

/-- A state with the canonical configuration, some commit and the
symlink is a fixed point of `index_new`. -/
theorem index_new_fixed (addr : String) (st : RepoState)
    (hcfg : st.config = some (.ok { dl := config_dl addr, api := some (config_api addr) }))
    (hcm : st.commits ≠ []) (hsym : st.symlink = true) :
    index_new addr st = (.ok (), st) := by
  have h1 : ensure_has_commit st = st := by
    unfold ensure_has_commit
    rw [if_neg]
    simp_all
  have h2 : ensure_config addr st = (.ok (), st) := by
    unfold ensure_config
    rw [hcfg]
    dsimp only
    rw [if_neg]
    push_neg
    exact ⟨rfl, rfl⟩
  have h3 : ensure_index_symlink st = st := by
    unfold ensure_index_symlink
    rw [if_pos hsym]
  unfold index_new
  rw [h1, h2]
  dsimp only
  rw [h3]

/-- C8: opening the index is idempotent: a second `index_new` with the
same address right after a successful one produces no new commits (the
state, its commit list included, is unchanged). -/
theorem index_new_idempotent (addr : String) (st st1 : RepoState)
    (h : index_new addr st = (.ok (), st1)) :
    index_new addr st1 = (.ok (), st1) := by
  unfold index_new at h
  rcases hc : ensure_config addr (ensure_has_commit st) with ⟨r, st2⟩
  rw [hc] at h
  rcases r with e | u
  · simp at h
  · dsimp only at h
    rcases h with ⟨rfl⟩
    obtain ⟨hcfg, hsym, l, hcm⟩ := ensure_config_ok_props addr _ _ _ hc
    obtain ⟨hsym1, hcfg1, l1, hcm1⟩ := ensure_index_symlink_props st2
    apply index_new_fixed
    · rw [hcfg1, hcfg]
    · rw [hcm1, hcm]
      have hne := ensure_has_commit_commits_ne st
      simp_all
    · exact hsym1

/-- Witness for C8: a second open of a freshly created root changes
nothing. -/
theorem index_new_idempotent_witness :
    index_new addr0 st_open1 = (.ok (), st_open1) :=
  index_new_idempotent addr0 st_fresh st_open1 rfl

/-- Looking up the key just set returns the value just set. -/
theorem getA_setA_self [DecidableEq κ] (m : List (κ × α)) (k : κ) (v : α) :
    getA (setA m k v) k = some v := by
  induction m with
  | nil => simp [setA, getA]
  | cons p rest ih =>
      rcases p with ⟨k0, v0⟩
      by_cases h : k = k0
      · subst h
        simp [setA, getA]
      · simp [setA, getA, h, ih]

/-- Decoding the hex digits of a value below 16 recovers it. -/
theorem hexDigitVal_hexDigit : ∀ n < 16, hexDigitVal (hexDigit n) = n := by decide

/-- Decoding the hex rendering of a byte list recovers the bytes. -/
theorem hexPairsDecode_flatten (bs : List Nat) (h : ∀ b ∈ bs, b < 256) :
    hexPairsDecode ((bs.map byteToHex).flatten) = bs := by
  induction bs with
  | nil => rfl
  | cons b rest ih =>
      have hb : b < 256 := h b (by simp)
      have h1 : hexDigitVal (hexDigit (b / 16)) = b / 16 :=
        hexDigitVal_hexDigit _ (by omega)
      have h2 : hexDigitVal (hexDigit (b % 16)) = b % 16 :=
        hexDigitVal_hexDigit _ (by omega)
      have ih2 := ih (fun x hx => h x (by simp [hx]))
      simp [byteToHex, hexPairsDecode, h1, h2, ih2]
      omega

/-- Every byte of a SHA-256 digest is below 256. -/
theorem sha256_bytes_lt (msg : List Nat) : ∀ b ∈ sha256 msg, b < 256 := by
  intro b hb
  simp only [sha256, List.mem_flatten, List.mem_map] at hb
  obtain ⟨l, ⟨w, hw, rfl⟩, hbl⟩ := hb
  simp only [wordToBytes4, List.mem_cons, List.not_mem_nil, or_false] at hbl
  rcases hbl with h | h | h | h <;> subst h <;> exact Nat.mod_lt _ (by norm_num)

/-- Hex decode inverts the hex rendering on genuine byte lists. -/
theorem hexDecode_bytesToHex (bs : List Nat) (h : ∀ b ∈ bs, b < 256) :
    hexDecode (bytesToHex bs) = bs := by
  simpa [hexDecode, bytesToHex, String.toList] using hexPairsDecode_flatten bs h

/-- C2: for every successful publish there is a crate name and
version such that the archive file written under
`<name>-<version>.crate` holds exactly the archive bytes of the
request, the shard file of the crate ends with the emitted index
entry, the `cksum` of that entry is the lowercase hex rendering of the
SHA-256 digest of those bytes, and hex-decoding the `cksum` yields the
digest of the bytes of the stored file. -/
theorem publish_cksum_honest (from_slice : Bytes → Option MetaData) (body : Bytes)
    (st st' : RegistryFs) (h : publish_crate from_slice body st = (.ok (), st')) :
    ∃ name vers data entries entry,
      getA st'.crate_files (crate_file_name name vers) = some data ∧
      getA st'.index_files (crate_path name.toList ++ [name]) = some entries ∧
      entries.getLast? = some entry ∧
      entry.cksum = bytesToHex (sha256 data) ∧
      hexDecode entry.cksum = sha256 data := by
  unfold publish_crate at h
  rcases hp1 : parse_u32 body with ⟨r1, body1⟩
  rw [hp1] at h
  rcases r1 with e1 | json_length
  · simp at h
  · dsimp only at h
    rcases hp2 : parse_metadata from_slice body1 json_length with ⟨r2, body2⟩
    rw [hp2] at h
    rcases r2 with e2 | metadata
    · simp at h
    · dsimp only at h
      by_cases hne : metadata.name.isEmpty = true
      · rw [if_pos hne] at h
        simp at h
      · rw [if_neg hne] at h
        by_cases hascii : (!isAsciiString metadata.name) = true
        · rw [if_pos hascii] at h
          simp at h
        · rw [if_neg hascii] at h
          rcases hp3 : parse_u32 body2 with ⟨r3, body3⟩
          rw [hp3] at h
          rcases r3 with e3 | crate_length
          · simp at h
          · dsimp only at h
            rcases hp4 : read_crate body3 crate_length with ⟨r4, body4⟩
            rw [hp4] at h
            rcases r4 with e4 | data
            · simp at h
            · dsimp only at h
              simp only [Prod.mk.injEq] at h
              obtain ⟨-, rfl⟩ := h
              exact ⟨metadata.name, metadata.vers, data, _,
                Index.Entry.fromMeta metadata data, getA_setA_self _ _ _,
                getA_setA_self _ _ _, List.getLast?_concat _, rfl,
                hexDecode_bytesToHex _ (sha256_bytes_lt data)⟩

/-- Witness for C2 at a concrete successful publish. -/
theorem publish_cksum_honest_witness :
    ∃ name vers data entries entry,
      getA (publish_crate from_slice0 body0 RegistryFs.empty).2.crate_files
        (crate_file_name name vers) = some data ∧
      getA (publish_crate from_slice0 body0 RegistryFs.empty).2.index_files
        (crate_path name.toList ++ [name]) = some entries ∧
      entries.getLast? = some entry ∧
      entry.cksum = bytesToHex (sha256 data) ∧
      hexDecode entry.cksum = sha256 data :=
  publish_cksum_honest from_slice0 body0 RegistryFs.empty _ rfl

/-- C4 counterexample: a publish request that passes the metadata
frame and the name checks but is truncated before the archive length
fails with the frame error `failed to read crate length`, yet the
filesystem is changed: the shard directory has been created. -/
theorem publish_frame_error_mutates_fs :
    (publish_crate from_slice0 body4 RegistryFs.empty).1 =
      .error (.context "failed to read crate length" (.msg "not enough data for u32")) ∧
    (publish_crate from_slice0 body4 RegistryFs.empty).2 ≠ RegistryFs.empty := by
  constructor
  · rfl
  · decide

/-- C4 (amended): the metadata length, the metadata JSON and the name
checks complete before the shard directory is created, so a publish
failing with any of those errors leaves the filesystem unchanged; the
archive length and the archive bytes are parsed after the directory is
created, so a publish failing there leaves exactly the state with the
shard directory of the parsed crate name created. -/
theorem publish_validation_error_fs (from_slice : Bytes → Option MetaData)
    (body : Bytes) (st : RegistryFs) :
    (∀ e, (publish_crate from_slice body st).1 = .error e →
      (e.chain.head? = some "failed to read JSON length" ∨
       e.chain.head? = some "failed to read JSON body" ∨
       e = .msg "crate name cannot be empty" ∨
       e = .msg "crate name contains non-ASCII characters") →
      (publish_crate from_slice body st).2 = st) ∧
    (∀ e, (publish_crate from_slice body st).1 = .error e →
      (e.chain.head? = some "failed to read crate length" ∨
       e.chain.head? = some "failed to read crate data") →
      ∃ name : String, (publish_crate from_slice body st).2 =
        create_dir_all (crate_path name.toList) st) := by
  unfold publish_crate
  rcases hp1 : parse_u32 body with ⟨r1, body1⟩
  rcases r1 with e1 | json_length
  · dsimp only
    constructor
    · intro e h1 h2
      rfl
    · intro e h1 h2
      injection h1 with h1
      subst h1
      simp only [AnyErr.chain, List.head?] at h2
      rcases h2 with h2 | h2 <;> exact absurd (Option.some.inj h2) (by decide)
  · dsimp only
    rcases hp2 : parse_metadata from_slice body1 json_length with ⟨r2, body2⟩
    rcases r2 with e2 | metadata
    · dsimp only
      constructor
      · intro e h1 h2
        rfl
      · intro e h1 h2
        injection h1 with h1
        subst h1
        simp only [AnyErr.chain, List.head?] at h2
        rcases h2 with h2 | h2 <;> exact absurd (Option.some.inj h2) (by decide)
    · dsimp only
      by_cases hne : metadata.name.isEmpty = true
      · rw [if_pos hne]
        constructor
        · intro e h1 h2
          rfl
        · intro e h1 h2
          injection h1 with h1
          subst h1
          simp only [AnyErr.chain, List.head?] at h2
          rcases h2 with h2 | h2 <;> exact absurd (Option.some.inj h2) (by simp)
      · rw [if_neg hne]
        by_cases hascii : (!isAsciiString metadata.name) = true
        · rw [if_pos hascii]
          constructor
          · intro e h1 h2
            rfl
          · intro e h1 h2
            injection h1 with h1
            subst h1
            simp only [AnyErr.chain, List.head?] at h2
            rcases h2 with h2 | h2 <;> exact absurd (Option.some.inj h2) (by simp)
        · rw [if_neg hascii]
          rcases hp3 : parse_u32 body2 with ⟨r3, body3⟩
          rcases r3 with e3 | crate_length
          · dsimp only
            constructor
            · intro e h1 h2
              injection h1 with h1
              subst h1
              rcases h2 with h2 | h2 | h2 | h2
              · exact absurd (Option.some.inj h2) (by decide)
              · exact absurd (Option.some.inj h2) (by decide)
              · exact absurd h2 (by simp)
              · exact absurd h2 (by simp)
            · intro e h1 h2
              exact ⟨metadata.name, rfl⟩
          · dsimp only
            rcases hp4 : read_crate body3 crate_length with ⟨r4, body4⟩
            rcases r4 with e4 | data
            · dsimp only
              constructor
              · intro e h1 h2
                injection h1 with h1
                subst h1
                rcases h2 with h2 | h2 | h2 | h2
                · exact absurd (Option.some.inj h2) (by decide)
                · exact absurd (Option.some.inj h2) (by decide)
                · exact absurd h2 (by simp)
                · exact absurd h2 (by simp)
              · intro e h1 h2
                exact ⟨metadata.name, rfl⟩
            · dsimp only
              constructor
              · intro e h1 h2
                exact absurd h1 (by simp)
              · intro e h1 h2
                exact absurd h1 (by simp)

/-- Witness for C4 at a concrete early failure: an empty body fails
reading the metadata length and leaves the filesystem unchanged. -/
theorem publish_validation_error_fs_witness :
    (publish_crate from_slice0 [] RegistryFs.empty).2 = RegistryFs.empty :=
  (publish_validation_error_fs from_slice0 [] RegistryFs.empty).1
    (.context "failed to read JSON length" (.msg "not enough data for u32"))
    rfl (Or.inl rfl)
